import Mathlib

/-!
Shallow embedding of the glog package: a log/slog handler that formats
records for GCP Cloud Logging.  The Go source consists of the handler
file (GCPHandler, Handle, WithAttrs, WithGroup, addAttrToFields,
levelToGCPSeverity), logger.go (globalExtraFields, MergeGlobalExtraFields)
and source.go (outsideCaller).  Machine integers (slog.Level is an int,
durations are int64 nanoseconds) are modelled as Int; Go maps are
modelled as association lists with in-place-replace-or-append insertion,
which matches Go map assignment up to iteration order; fallible calls
(json.Marshal, io.Writer.Write) are modelled with Except.
-/

namespace Glog

/-- A JSON value, used for the emitted wire document and for opaque
attribute payloads that pass through the handler unchanged. -/
inductive Json where
  | null : Json
  | jstr (s : String) : Json
  | jint (i : Int) : Json
  | jbool (b : Bool) : Json
  | jobj (fields : List (String × Json)) : Json


/-- A dynamic slog.Value as the handler distinguishes it: strings,
int64s, durations (int64 nanoseconds, slog.KindDuration), KindAny values
holding an error (carrying the text of err.Error()), and all other
KindAny values (carrying their JSON rendering, which the handler never
inspects). -/
inductive SlogValue where
  | strV (s : String) : SlogValue
  | intV (i : Int) : SlogValue
  | durationV (ns : Int) : SlogValue
  | errV (msg : String) : SlogValue
  | anyV (j : Json) : SlogValue


/-- An slog.Attr: a key paired with a dynamic value. -/
structure Attr where
  key : String
  value : SlogValue


/-- Go map assignment fields[k] = v on an association-list model:
replace the binding in place when the key is present, append otherwise. -/
def mapInsert {V : Type} (m : List (String × V)) (k : String) (v : V) :
    List (String × V) :=
  match m with
  | [] => [(k, v)]
  | (k', v') :: rest =>
      if k' = k then (k, v) :: rest else (k', v') :: mapInsert rest k v

/-- Go map read m[k]. -/
def mapLookup {V : Type} (m : List (String × V)) (k : String) : Option V :=
  match m with
  | [] => none
  | (k', v') :: rest => if k' = k then some v' else mapLookup rest k

/-- slog.LevelDebug. -/
def LevelDebug : Int := -4
/-- slog.LevelInfo. -/
def LevelInfo : Int := 0
/-- slog.LevelWarn. -/
def LevelWarn : Int := 4
/-- slog.LevelError. -/
def LevelError : Int := 8

/-- levelToGCPSeverity converts slog.Level to GCP severity string
(switch on level >= Error, >= Warn, >= Info, default DEBUG). -/
def levelToGCPSeverity (level : Int) : String :=
  if LevelError ≤ level then "ERROR"
  else if LevelWarn ≤ level then "WARNING"
  else if LevelInfo ≤ level then "INFO"
  else "DEBUG"

/-- The value rewrite inside addAttrToFields: a KindAny value that is an
error is replaced by slog.StringValue(err.Error()); a KindDuration value
is replaced by slog.Int64Value(attr.Value.Duration().Milliseconds()),
where Go Milliseconds() is int64 division by 1e6 truncating toward zero;
every other value is left as is. -/
def normalizeValue : SlogValue → SlogValue
  | .errV msg => .strV msg
  | .durationV ns => .intV (Int.tdiv ns 1000000)
  | v => v

/-- addAttrToFields adds an slog.Attr to the fields map: rewrite the
value as above, then fields[attr.Key] = attr.Value.Any(). -/
def addAttrToFields (fields : List (String × SlogValue)) (attr : Attr) :
    List (String × SlogValue) :=
  mapInsert fields attr.key (normalizeValue attr.value)

/-- GCPHandler: sink (opaque writer identity), enabled-level threshold,
preset attributes, group marker. -/
structure GCPHandler where
  w : Nat
  level : Int
  attrs : List Attr
  group : String


/-- NewGCPHandler creates a new handler over a writer and level, with an
empty attribute list (and Go's zero-value empty group string). -/
def NewGCPHandler (w : Nat) (level : Int) : GCPHandler :=
  { w := w, level := level, attrs := [], group := "" }

/-- Enabled reports whether the handler handles records at the given
level: level >= h.level. -/
def GCPHandler.Enabled (h : GCPHandler) (level : Int) : Bool :=
  h.level ≤ level

/-- WithAttrs returns a new handler whose attribute list is the old list
followed by the new attributes; writer, level and group are copied. -/
def GCPHandler.WithAttrs (h : GCPHandler) (attrs : List Attr) : GCPHandler :=
  { w := h.w, level := h.level, attrs := h.attrs ++ attrs, group := h.group }

/-- WithGroup returns a new handler with a replaced group marker; writer,
level and attribute list are copied. -/
def GCPHandler.WithGroup (h : GCPHandler) (name : String) : GCPHandler :=
  { w := h.w, level := h.level, attrs := h.attrs, group := name }

/-- A resolved program location (runtime.Frame fields used by Handle). -/
structure SrcLoc where
  file : String
  line : Int
  function : String


/-- The source-location object of the wire document. -/
structure SourceLocation where
  file : String
  line : Int
  function : String


/-- An slog.Record: level, message, the capture-time timestamp already
formatted as RFC3339Nano UTC text, the call-site program counter
(0 when absent), and the ordered record attributes. -/
structure Record where
  level : Int
  message : String
  timestamp : String
  pc : Nat
  attrs : List Attr


/-- gcpLogEntry: the GCP Cloud Logging compatible log entry built by
Handle.  sourceLocation is an optional pointer (json omitempty). -/
structure GcpLogEntry where
  severity : String
  message : String
  timestamp : String
  sourceLocation : Option SourceLocation
  context : List (String × SlogValue)
  extra : List (String × Json)


/-- The entry-construction part of GCPHandler.Handle: severity from
levelToGCPSeverity; source location attached iff r.PC != 0 and the level
is exactly debug or error (resolved through the runtime frame table);
context built by folding addAttrToFields over the handler preset
attributes and then the record attributes; extra is the process-wide
globalExtraFields, passed here explicitly. -/
def mkEntry (resolve : Nat → SrcLoc) (globalExtraFields : List (String × Json))
    (h : GCPHandler) (r : Record) : GcpLogEntry :=
  let severity := levelToGCPSeverity r.level
  let shouldLogSource := r.level = LevelDebug ∨ r.level = LevelError
  let sourceLocation : Option SourceLocation :=
    if r.pc ≠ 0 ∧ shouldLogSource then
      let f := resolve r.pc
      some { file := f.file, line := f.line, function := f.function }
    else none
  let fields := List.foldl addAttrToFields [] h.attrs
  let fields := List.foldl addAttrToFields fields r.attrs
  { severity := severity, message := r.message, timestamp := r.timestamp,
    sourceLocation := sourceLocation, context := fields,
    extra := globalExtraFields }

/-- JSON rendering of a dynamic value (only string, int64 and opaque-any
values survive normalization; a Go time.Duration marshals as its int64
nanosecond count, and a bare error value is rendered as an object). -/
def valToJson : SlogValue → Json
  | .strV s => .jstr s
  | .intV i => .jint i
  | .durationV ns => .jint ns
  | .errV _ => .jobj []
  | .anyV j => j

/-- json.Marshal of a gcpLogEntry as the ordered field list of the
emitted JSON object, following the struct tags: the
sourceLocation field carries omitempty, so a nil pointer omits the key
entirely rather than emitting null. -/
def marshalEntry (e : GcpLogEntry) : List (String × Json) :=
  [("severity", .jstr e.severity),
   ("message", .jstr e.message),
   ("timestamp", .jstr e.timestamp)]
  ++ (match e.sourceLocation with
      | some sl =>
          [("logging.googleapis.com/sourceLocation",
            .jobj [("file", .jstr sl.file), ("line", .jint sl.line),
                   ("function", .jstr sl.function)])]
      | none => [])
  ++ [("context", .jobj (e.context.map (fun kv => (kv.1, valToJson kv.2)))),
      ("extra", .jobj e.extra)]

/-- MergeGlobalExtraFields: for each key/value of the argument map,
globalExtraFields[key] = value.  State is passed explicitly; the
argument is a Go map, so its keys are pairwise distinct and iteration
order does not change the result. -/
def MergeGlobalExtraFields (globalExtraFields : List (String × Json))
    (extraFields : List (String × Json)) : List (String × Json) :=
  extraFields.foldl (fun m kv => mapInsert m kv.1 kv.2) globalExtraFields

/-- The serialize-and-write tail of GCPHandler.Handle, parametrized over
json.Marshal and the sink's Write (whose byte count Handle ignores).
Returns Handle's result together with the list of write calls issued:
a marshal error returns that error with no write; otherwise one newline
is appended and the buffer written once, returning Write's error. -/
def handleWrite (marshal : GcpLogEntry → Except String String)
    (write : String → Except String Nat) (e : GcpLogEntry) :
    Except String Unit × List String :=
  match marshal e with
  | .error err => (.error err, [])
  | .ok b =>
      let b := b ++ "\n"
      match write b with
      | .error err => (.error err, [b])
      | .ok _ => (.ok (), [b])

/-- The module path prefix of the logging facade itself. -/
def pkgPrefix : String := "github.com/twopow/glog."

/-- A captured stack frame as the resolver sees it: the fully qualified
function name and the program counter. -/
structure StackFrame where
  function : String
  pc : Nat


/-- strings.Contains: substring containment. -/
def strContains (s pat : String) : Bool :=
  (List.range (s.data.length + 1)).any fun i => pat.data.isPrefixOf (s.data.drop i)

/-- The frame loop of outsideCaller: return the PC of the first frame
whose function name does not contain the package prefix; 0 when the
captured frames are exhausted (runtime.CallersFrames of an empty slice
yields a single zero frame, whose empty name trivially fails the
containment test, so that case also returns PC 0). -/
def outsideCallerLoop : List StackFrame → Nat
  | [] => 0
  | f :: rest =>
      if strContains f.function pkgPrefix then outsideCallerLoop rest else f.pc

/-- outsideCaller over the active call stack, innermost frame first with
runtime.Callers itself at index 0 and outsideCaller at index 1:
runtime.Callers(2, pcs[:16]) captures up to 16 frames starting at the
resolver's caller, then the loop scans them in order. -/
def outsideCaller (stack : List StackFrame) : Nat :=
  outsideCallerLoop ((stack.drop 2).take 16)

/-- True when a JSON value is not the null literal. -/
def jsonNotNull : Json → Bool
  | .null => false
  | _ => true

/-- Discriminator for the failure side of Except. -/
def exceptIsErr {α : Type} : Except String α → Bool
  | .error _ => true
  | .ok _ => false

/-!  Helper lemmas shared by the claim proofs. -/

theorem mapLookup_mapInsert {V : Type} (m : List (String × V)) (k q : String)
    (v : V) :
    mapLookup (mapInsert m k v) q = if k = q then some v else mapLookup m q := by
  induction m with
  | nil =>
    by_cases hq : k = q <;> simp [mapInsert, mapLookup, hq]
  | cons kv rest ih =>
    obtain ⟨k0, v0⟩ := kv
    by_cases h0 : k0 = k
    · subst h0
      by_cases hq : k0 = q <;> simp [mapInsert, mapLookup, hq]
    · by_cases hq : k0 = q
      · subst hq
        have hkq : ¬ k = k0 := fun h => h0 h.symm
        simp [mapInsert, mapLookup, h0, hkq]
      · simp [mapInsert, mapLookup, h0, hq, ih]

theorem outsideCallerLoop_eq_find (l : List StackFrame) :
    outsideCallerLoop l =
      (match l.find? (fun f => ! strContains f.function pkgPrefix) with
       | some f => f.pc
       | none => 0) := by
  induction l with
  | nil => rfl
  | cons f rest ih =>
    cases hf : strContains f.function pkgPrefix <;>
      simp [outsideCallerLoop, List.find?, hf, ih]

/-- Claim C1: deriving with WithAttrs(A) then WithAttrs(B) and handling a
record produces a context equal to inserting, in order, the accumulated
preset attributes followed by the record attributes into the key-value
map (for a fresh handler that is exactly [A, B] then the record
attributes); a later attribute of a duplicate key overwrites the
earlier one at map-build time; and the original handler's own handling
is unaffected by A and B (its attribute list is never mutated). -/
theorem withAttrs_context_spec (h : GCPHandler) (A B : List Attr) (r : Record)
    (resolve : Nat → SrcLoc) (g : List (String × Json)) (w : Nat) (lvl : Int) :
    (mkEntry resolve g ((h.WithAttrs A).WithAttrs B) r).context
        = List.foldl addAttrToFields [] ((h.attrs ++ A ++ B) ++ r.attrs)
    ∧ (mkEntry resolve g (((NewGCPHandler w lvl).WithAttrs A).WithAttrs B) r).context
        = List.foldl addAttrToFields [] ((A ++ B) ++ r.attrs)
    ∧ ((h.WithAttrs A).WithAttrs B).attrs = h.attrs ++ A ++ B
    ∧ (mkEntry resolve g h r).context
        = List.foldl addAttrToFields [] (h.attrs ++ r.attrs)
    ∧ (∀ (m : List (String × SlogValue)) (a : Attr),
        mapLookup (addAttrToFields m a) a.key = some (normalizeValue a.value)) := by
  refine ⟨?_, ?_, rfl, ?_, ?_⟩
  · simp [mkEntry, GCPHandler.WithAttrs, List.foldl_append]
  · simp [mkEntry, GCPHandler.WithAttrs, NewGCPHandler, List.foldl_append]
  · simp [mkEntry, List.foldl_append]
  · intro m a
    simp [addAttrToFields, mapLookup_mapInsert]

/-- Claim C2: the emitted JSON document carries the
logging.googleapis.com/sourceLocation key exactly when the record level
is debug or error and the record has a non-zero PC; in every other case
the key is entirely absent (and no top-level field is ever null). -/
theorem sourceLocation_presence_spec (resolve : Nat → SrcLoc)
    (g : List (String × Json)) (h : GCPHandler) (r : Record) :
    ("logging.googleapis.com/sourceLocation"
        ∈ (marshalEntry (mkEntry resolve g h r)).map Prod.fst
      ↔ r.pc ≠ 0 ∧ (r.level = LevelDebug ∨ r.level = LevelError))
    ∧ ((mkEntry resolve g h r).sourceLocation.isSome = true
      ↔ r.pc ≠ 0 ∧ (r.level = LevelDebug ∨ r.level = LevelError))
    ∧ (marshalEntry (mkEntry resolve g h r)).all
        (fun kv => jsonNotNull kv.2) = true := by
  by_cases hc : r.pc ≠ 0 ∧ (r.level = LevelDebug ∨ r.level = LevelError) <;>
    simp [mkEntry, marshalEntry, hc, jsonNotNull]

/-- Claim C3: the call-site resolver looks at at most 16 captured frames
starting above its own frame, scans them in stack-walker order, and
returns the PC of the first frame whose fully-qualified function name
does not contain the facade's module-path prefix, or 0 when every
captured frame contains the prefix; it is a total function with no
error result. -/
theorem outsideCaller_spec (stack : List StackFrame) :
    outsideCaller stack =
      (match ((stack.drop 2).take 16).find?
          (fun f => ! strContains f.function pkgPrefix) with
       | some f => f.pc
       | none => 0)
    ∧ ((stack.drop 2).take 16).length ≤ 16 := by
  refine ⟨outsideCallerLoop_eq_find _, ?_⟩
  simp [List.length_take]

/-- Claim C4: the severity mapper is total, returns only one of the four
GCP severity strings, and chooses by threshold comparison against the
error/warn/info cutoffs, so any level at or above the error cutoff
(custom intermediate levels included) maps to ERROR and the mapper
never errors. -/
theorem levelToGCPSeverity_spec (level : Int) :
    (levelToGCPSeverity level = "ERROR" ↔ LevelError ≤ level)
    ∧ (levelToGCPSeverity level = "WARNING"
        ↔ LevelWarn ≤ level ∧ level < LevelError)
    ∧ (levelToGCPSeverity level = "INFO"
        ↔ LevelInfo ≤ level ∧ level < LevelWarn)
    ∧ (levelToGCPSeverity level = "DEBUG" ↔ level < LevelInfo)
    ∧ levelToGCPSeverity level ∈ ["DEBUG", "INFO", "WARNING", "ERROR"] := by
  unfold levelToGCPSeverity LevelError LevelWarn LevelInfo
  split_ifs with h1 h2 h3 <;>
    refine ⟨?_, ?_, ?_, ?_, ?_⟩ <;> simp_all <;> omega

/-- Claim C5: attribute normalization is independent of the key: an
error-like value is emitted as its textual description, a duration of N
nanoseconds as the whole number of milliseconds truncated toward zero
(1,500,000 ns gives 1), and every other value passes through
unchanged. -/
theorem addAttrToFields_spec (fields : List (String × SlogValue)) (k : String)
    (msg s : String) (ns i : Int) (j : Json) :
    addAttrToFields fields ⟨k, .errV msg⟩ = mapInsert fields k (.strV msg)
    ∧ addAttrToFields fields ⟨k, .durationV ns⟩
        = mapInsert fields k (.intV (Int.tdiv ns 1000000))
    ∧ addAttrToFields fields ⟨k, .strV s⟩ = mapInsert fields k (.strV s)
    ∧ addAttrToFields fields ⟨k, .intV i⟩ = mapInsert fields k (.intV i)
    ∧ addAttrToFields fields ⟨k, .anyV j⟩ = mapInsert fields k (.anyV j)
    ∧ addAttrToFields fields ⟨k, .durationV 1500000⟩
        = mapInsert fields k (.intV 1) := by
  refine ⟨rfl, rfl, rfl, rfl, rfl, ?_⟩
  norm_num [addAttrToFields, normalizeValue, Int.tdiv]

/-- Claim C6: Enabled returns true exactly when the record level is at
or above the handler's configured threshold; it is a pure total Boolean
comparison. -/
theorem enabled_spec (h : GCPHandler) (level : Int) :
    h.Enabled level = true ↔ h.level ≤ level := by
  simp [GCPHandler.Enabled]

/-- Claim C7: merging extra fields updates the process-wide store with
later calls overwriting the same key, Handle reads the store as the
entry's extra object, and after Merge env=prod every entry's extra has
env=prod while a further Merge env=staging switches it to staging, with
the same unreconstructed handler. -/
theorem mergeGlobalExtraFields_spec (g : List (String × Json)) (h : GCPHandler)
    (r : Record) (resolve : Nat → SrcLoc) (k q : String) (v : Json) :
    (mkEntry resolve g h r).extra = g
    ∧ mapLookup (MergeGlobalExtraFields g [(k, v)]) q
        = (if k = q then some v else mapLookup g q)
    ∧ mapLookup
        (mkEntry resolve (MergeGlobalExtraFields g [("env", .jstr "prod")]) h r).extra
        "env" = some (.jstr "prod")
    ∧ mapLookup
        (mkEntry resolve
          (MergeGlobalExtraFields
            (MergeGlobalExtraFields g [("env", .jstr "prod")])
            [("env", .jstr "staging")]) h r).extra
        "env" = some (.jstr "staging") := by
  refine ⟨rfl, ?_, ?_, ?_⟩ <;>
    simp [MergeGlobalExtraFields, mkEntry, mapLookup_mapInsert]

/-- Claim C8: Handle fails exactly when serialization fails or the sink
write fails, attempts at most one write per record with no retry or
buffering, and on success the single write is the serialized document
followed by one newline. -/
theorem handleWrite_spec (marshal : GcpLogEntry → Except String String)
    (write : String → Except String Nat) (e : GcpLogEntry) :
    (exceptIsErr (handleWrite marshal write e).1 = true
      ↔ exceptIsErr (marshal e) = true
        ∨ ∃ b, marshal e = .ok b ∧ exceptIsErr (write (b ++ "\n")) = true)
    ∧ (handleWrite marshal write e).2.length ≤ 1
    ∧ ((handleWrite marshal write e).1 = .ok ()
      ↔ ∃ b n, marshal e = .ok b ∧ write (b ++ "\n") = .ok n
          ∧ (handleWrite marshal write e).2 = [b ++ "\n"]) := by
  rcases hm : marshal e with em | b
  · simp [handleWrite, hm, exceptIsErr]
  · rcases hw : write (b ++ "\n") with ew | n <;>
      simp [handleWrite, hm, hw, exceptIsErr]

/-- Claim C9: WithGroup replaces only the group marker, keeping sink,
threshold and attribute list, and the emitted document of the derived
handler is identical to the parent's: the group never nests or prefixes
attribute keys in the output. -/
theorem withGroup_spec (h : GCPHandler) (name : String) (r : Record)
    (resolve : Nat → SrcLoc) (g : List (String × Json)) :
    (h.WithGroup name).w = h.w
    ∧ (h.WithGroup name).level = h.level
    ∧ (h.WithGroup name).attrs = h.attrs
    ∧ (h.WithGroup name).group = name
    ∧ marshalEntry (mkEntry resolve g (h.WithGroup name) r)
        = marshalEntry (mkEntry resolve g h r) := by
  exact ⟨rfl, rfl, rfl, rfl, rfl⟩

/-- Claim C10: a custom level strictly above the error level is emitted
with severity ERROR yet never carries a source-location object, whatever
the record's PC, because the source-location gate tests exact equality
with the debug and error levels while severity uses the threshold
comparison. -/
theorem aboveError_no_sourceLocation (resolve : Nat → SrcLoc)
    (g : List (String × Json)) (h : GCPHandler) (r : Record)
    (hl : LevelError < r.level) :
    (mkEntry resolve g h r).severity = "ERROR"
    ∧ (mkEntry resolve g h r).sourceLocation = none := by
  have h8 : LevelError ≤ r.level := le_of_lt hl
  have hne : ¬ (r.level = LevelDebug ∨ r.level = LevelError) := by
    unfold LevelDebug LevelError at *
    omega
  constructor
  · simp [mkEntry, levelToGCPSeverity, h8]
  · simp [mkEntry, hne]

/-- Witness for C10 at a concrete record of custom level 12 with a
non-zero, resolvable PC. -/
theorem aboveError_no_sourceLocation_witness :
    LevelError < (12 : Int)
    ∧ ((mkEntry (fun _ => ⟨"main.go", 10, "main.main"⟩) []
          (NewGCPHandler 0 0)
          { level := 12, message := "boom", timestamp := "t", pc := 1,
            attrs := [] }).severity = "ERROR"
        ∧ (mkEntry (fun _ => ⟨"main.go", 10, "main.main"⟩) []
            (NewGCPHandler 0 0)
            { level := 12, message := "boom", timestamp := "t", pc := 1,
              attrs := [] }).sourceLocation = none) :=
  ⟨by decide,
   aboveError_no_sourceLocation (fun _ => ⟨"main.go", 10, "main.main"⟩) []
     (NewGCPHandler 0 0)
     { level := 12, message := "boom", timestamp := "t", pc := 1, attrs := [] }
     (by decide)⟩

end Glog
